import Mathlib

/-!
Shallow embedding of the Destination Recommendation & Ranking Engine of
`src/ai-engine/main.py` (virtual-vacation repository), together with proofs
of the behavioural properties stated in the specification.

Numeric scores are modelled over `ℚ`; the Python floats `0.1`, `0.05`,
`0.95`, `0.90`, `0.88` become the exact rationals `1/10`, `1/20`, `19/20`,
`9/10`, `22/25`.
-/

namespace VirtualVacation

/-- The `UserPreferences` pydantic model (main.py lines 49-57); the fields the
ranking algorithm reads. -/
structure UserPreferences where
  user_id : String
  preferred_climates : List String := []
  activity_types : List String := []
  budget_range : String := "medium"
  travel_style : String := "balanced"
  interests : List String := []
deriving DecidableEq, Repr

/-- A destination document from the `destinations` collection, reduced to
the fields read by `recommend`, `submit_feedback` and
`get_trending_destinations` (cf. `DestinationProfile`, main.py lines 73-84). -/
structure Destination where
  id : String
  name : String
  country : String
  climate : String
  activity_types : List String := []
  interests : List String := []
  budget_level : String := "medium"
  popularity_score : ℚ := 0
deriving DecidableEq, Repr

/-- One entry of the list built by `ContentBasedRecommendationModel.recommend`
(main.py lines 284-294); the presentation-only fields (justification string,
location, climate echo) do not influence ranking and are omitted. -/
structure Recommendation where
  id : String
  name : String
  country : String
  score : ℚ
deriving DecidableEq, Repr

/-- The Python expression `len(set(dest.get('activity_types', [])) & set(user_preferences.activity_types))`
(main.py line 281): the number of distinct activity tags of the destination
that also occur among the user's activity types. -/
def activityMatch (dest : Destination) (prefs : UserPreferences) : Nat :=
  (dest.activity_types.dedup.filter (fun t => decide (t ∈ prefs.activity_types))).length

/-- The body of the candidate loop for one destination (main.py lines 275-294):
start from the raw cosine similarity `similarity_scores[i]`, add `0.1` when the
budget level equals the user's budget range, then add `0.05` per matching
activity tag. -/
def mkRecommendation (prefs : UserPreferences) (sims : List ℚ) (i : Nat)
    (dest : Destination) : Recommendation :=
  let score := sims.getD i 0
  let score := if dest.budget_level = prefs.budget_range then score + 1/10 else score
  let score := score + (activityMatch dest prefs : ℚ) * (1/20)
  { id := dest.id, name := dest.name, country := dest.country, score := score }

/-- The candidate loop of `recommend` (main.py lines 270-294): walk the corpus
in enumeration order, skip a destination when the exclusion list is non-empty
and contains its id (Python `if exclude_visited and dest.get('id') in
exclude_visited: continue`), and build a scored recommendation otherwise. -/
def buildRecs (prefs : UserPreferences) (excl : List String) (sims : List ℚ) :
    List (Nat × Destination) → List Recommendation
  | [] => []
  | (i, d) :: rest =>
    if excl ≠ [] ∧ d.id ∈ excl then buildRecs prefs excl sims rest
    else mkRecommendation prefs sims i d :: buildRecs prefs excl sims rest

/-- Stable insertion used to model Python's stable `list.sort`: the new
element goes before the first strictly smaller element, after equals. -/
def insertBy (ge : α → α → Bool) (a : α) : List α → List α
  | [] => [a]
  | x :: xs => if ge a x then a :: x :: xs else x :: insertBy ge a xs

/-- Stable insertion sort (descending when `ge` is a ≥-test); models
`recommendations.sort(key=lambda x: x['score'], reverse=True)` (main.py line
297), which is stable and descending. -/
def sortDescBy (ge : α → α → Bool) : List α → List α
  | [] => []
  | x :: xs => insertBy ge x (sortDescBy ge xs)

/-- Score comparison used by the sort: `a` may precede `b` iff `a.score ≥ b.score`. -/
def recGE (a b : Recommendation) : Bool := decide (b.score ≤ a.score)

/-- The operation `ContentBasedRecommendationModel.recommend` (main.py lines 259-298) with
the TF-IDF/cosine step abstracted into the per-corpus-index similarity list
`sims` (the value of `similarity_scores` at line 267): build candidates in
corpus order, sort stably by score descending, truncate to `limit`. -/
def recommend (dests : List Destination) (prefs : UserPreferences)
    (excl : List String) (sims : List ℚ) (limit : Nat) : List Recommendation :=
  (sortDescBy recGE (buildRecs prefs excl sims dests.enum)).take limit

/-- The whole body of `recommend` runs inside `try ... except` (main.py lines
261-302): when the scoring path fails (e.g. the vectorizer transform raises),
the `except` branch returns the empty list. `simsE` is the outcome of the
fallible similarity computation. -/
def recommendTotal (dests : List Destination) (prefs : UserPreferences)
    (excl : List String) (simsE : Except String (List ℚ)) (limit : Nat) :
    List Recommendation :=
  match simsE with
  | Except.ok sims => recommend dests prefs excl sims limit
  | Except.error _ => []

/-- The static fallback list `sample_destinations` of
`DummyRecommendationModel.recommend` (main.py lines 213-235). -/
def sample_destinations : List Recommendation :=
  [ { id := "paris_france", name := "Paris", country := "France", score := 19/20 },
    { id := "tokyo_japan", name := "Tokyo", country := "Japan", score := 9/10 },
    { id := "new_york_usa", name := "New York", country := "USA", score := 22/25 } ]

/-- The operation `DummyRecommendationModel.recommend` (main.py line 237):
`return sample_destinations[:limit]`. -/
def dummyRecommend (limit : Nat) : List Recommendation :=
  sample_destinations.take limit

/-- The two shapes the module-level `recommendation_model` can take:
the dummy fallback or a fitted content-based model over a corpus. -/
inductive RecommendationModel where
  | dummy : RecommendationModel
  | content : List Destination → RecommendationModel
deriving DecidableEq, Repr

/-- The function `train_recommendation_models` (main.py lines 143-206) restricted to the
model-selection outcome: an empty corpus yields the dummy fallback model
(lines 156-159), a non-empty corpus yields the fitted content-based model. -/
def train_recommendation_models (corpus : List Destination) : RecommendationModel :=
  if corpus = [] then RecommendationModel.dummy else RecommendationModel.content corpus

/-- Dispatch of `recommendation_model.recommend(...)` (main.py line 389) over
the two model shapes. -/
def modelRecommend (m : RecommendationModel) (prefs : UserPreferences)
    (excl : List String) (simsE : Except String (List ℚ)) (limit : Nat) :
    List Recommendation :=
  match m with
  | RecommendationModel.dummy => dummyRecommend limit
  | RecommendationModel.content dests => recommendTotal dests prefs excl simsE limit

/-- The `FeedbackRequest` pydantic model (main.py lines 66-71). `rating` is
declared `float` there, with only the comment `# 1-5`: no range validation is
attached to the field. -/
structure FeedbackRecord where
  user_id : String
  destination_id : String
  rating : ℚ
deriving DecidableEq, Repr

/-- The persistent state touched by `submit_feedback`: the `user_feedback`
collection (append-only log) and the `destinations` collection whose
`popularity_score` field it increments. -/
structure EngineState where
  feedback_log : List FeedbackRecord
  destinations : List Destination
deriving DecidableEq, Repr

/-- Mongo `update_one({"id": destId}, {"$inc": {"popularity_score": delta}})`:
increment the popularity of the first destination whose id matches; a missing
id leaves the collection unchanged. -/
def incPopularityFirst (delta : ℚ) (destId : String) :
    List Destination → List Destination
  | [] => []
  | d :: rest =>
    if d.id = destId then { d with popularity_score := d.popularity_score + delta } :: rest
    else d :: incPopularityFirst delta destId rest

/-- Read a destination's popularity: the `popularity_score` of the first
document matching the id (the same document `update_one` would touch). -/
def popularity (dests : List Destination) (destId : String) : Option ℚ :=
  (dests.find? (fun d => decide (d.id = destId))).map (fun d => d.popularity_score)

/-- The endpoint handler `submit_feedback` (main.py lines 443-464): store the feedback record,
then bump the destination's popularity by `+0.1` when `rating >= 4`, by
`-0.05` when `rating <= 2`, and not at all otherwise. -/
def submit_feedback (st : EngineState) (fb : FeedbackRecord) : EngineState :=
  let st1 : EngineState := { st with feedback_log := st.feedback_log ++ [fb] }
  if 4 ≤ fb.rating then
    { st1 with destinations := incPopularityFirst (1/10) fb.destination_id st1.destinations }
  else if fb.rating ≤ 2 then
    { st1 with destinations := incPopularityFirst (-(1/20)) fb.destination_id st1.destinations }
  else st1

/-- A document of the `user_visits` collection, reduced to the fields the
trending pipeline reads; `created_at` is a timestamp in seconds. -/
structure VisitRecord where
  user_id : String
  destination_id : String
  created_at : ℤ
deriving DecidableEq, Repr

/-- One output document of the trending aggregation after `$addFields` and
`$project` (main.py lines 526-550): the destination plus its
`recent_visit_count`. -/
structure TrendingEntry where
  dest : Destination
  recent_visit_count : Nat
deriving DecidableEq, Repr

/-- The `$lookup` + `$filter` + `$size` stages (main.py lines 527-546): the
number of visits joined on `destination_id` whose `created_at` is at least
`last_week`. -/
def recentVisitCount (visits : List VisitRecord) (destId : String)
    (last_week : ℤ) : Nat :=
  (visits.filter (fun v => decide (v.destination_id = destId ∧ last_week ≤ v.created_at))).length

/-- The two-key descending order of the `$sort` stage (main.py line 547):
`a` may precede `b` iff `a` has strictly more recent visits, or equally many
and at least the popularity. -/
def trendKeyGE (a b : TrendingEntry) : Prop :=
  b.recent_visit_count < a.recent_visit_count ∨
    (a.recent_visit_count = b.recent_visit_count ∧
      b.dest.popularity_score ≤ a.dest.popularity_score)

instance (a b : TrendingEntry) : Decidable (trendKeyGE a b) := by
  unfold trendKeyGE; infer_instance

/-- The per-destination stage list of the trending pipeline: pair each corpus
document with its windowed visit count (`$addFields`, main.py lines 535-546). -/
def trendingEntries (dests : List Destination) (visits : List VisitRecord)
    (last_week : ℤ) : List TrendingEntry :=
  dests.map (fun d => { dest := d, recent_visit_count := recentVisitCount visits d.id last_week })

/-- The endpoint handler `get_trending_destinations` (main.py lines 518-561): compute
`last_week = now - 7 days`, count each destination's visits in the window,
sort by (visit count descending, popularity descending), truncate to `limit`. -/
def get_trending_destinations (dests : List Destination)
    (visits : List VisitRecord) (now : ℤ) (limit : Nat) : List TrendingEntry :=
  let last_week := now - 7 * 86400
  (sortDescBy (fun a b => decide (trendKeyGE a b)) (trendingEntries dests visits last_week)).take limit

/-! ### Generic facts about the stable insertion sort -/

theorem insertBy_perm (ge : α → α → Bool) (a : α) (l : List α) :
    (insertBy ge a l).Perm (a :: l) := by
  induction l with
  | nil => exact List.Perm.refl _
  | cons x xs ih =>
    by_cases h : ge a x = true
    · simp [insertBy, h]
    · simp only [insertBy, h, Bool.false_eq_true, if_false]
      exact (ih.cons x).trans (List.Perm.swap a x xs)

theorem sortDescBy_perm (ge : α → α → Bool) (l : List α) :
    (sortDescBy ge l).Perm l := by
  induction l with
  | nil => exact List.Perm.refl _
  | cons x xs ih =>
    exact (insertBy_perm ge x (sortDescBy ge xs)).trans (ih.cons x)

theorem mem_insertBy {ge : α → α → Bool} {a b : α} {l : List α} :
    b ∈ insertBy ge a l ↔ b = a ∨ b ∈ l := by
  rw [(insertBy_perm ge a l).mem_iff, List.mem_cons]

theorem insertBy_sorted {ge : α → α → Bool}
    (htot : ∀ a b, ge a b = true ∨ ge b a = true)
    (htrans : ∀ a b c, ge a b = true → ge b c = true → ge a c = true)
    (a : α) {l : List α} (hl : List.Sorted (fun x y => ge x y = true) l) :
    List.Sorted (fun x y => ge x y = true) (insertBy ge a l) := by
  induction l with
  | nil => simp [insertBy]
  | cons x xs ih =>
    by_cases h : ge a x = true
    · simp only [insertBy, h, if_true]
      refine List.sorted_cons.mpr ⟨?_, hl⟩
      intro b hb
      rcases List.mem_cons.mp hb with rfl | hb
      · exact h
      · exact htrans a x b h (List.rel_of_sorted_cons hl b hb)
    · simp only [insertBy, h, Bool.false_eq_true, if_false]
      refine List.sorted_cons.mpr ⟨?_, ih (List.sorted_cons.mp hl).2⟩
      intro b hb
      rcases mem_insertBy.mp hb with rfl | hb
      · exact (htot b x).resolve_left h
      · exact (List.sorted_cons.mp hl).1 b hb

theorem sortDescBy_sorted {ge : α → α → Bool}
    (htot : ∀ a b, ge a b = true ∨ ge b a = true)
    (htrans : ∀ a b c, ge a b = true → ge b c = true → ge a c = true)
    (l : List α) :
    List.Sorted (fun x y => ge x y = true) (sortDescBy ge l) := by
  induction l with
  | nil => simp [sortDescBy]
  | cons x xs ih => exact insertBy_sorted htot htrans x ih

theorem filter_take_eq_take_filter (p : α → Bool) (l : List α) :
    ∀ n : Nat, ∃ k, (l.take n).filter p = (l.filter p).take k := by
  induction l with
  | nil => intro n; exact ⟨0, by simp⟩
  | cons x xs ih =>
    intro n
    cases n with
    | zero => exact ⟨0, by simp⟩
    | succ m =>
      obtain ⟨k, hk⟩ := ih m
      by_cases hx : p x = true
      · exact ⟨k + 1, by simp [List.take_succ_cons, List.filter_cons, hx, hk]⟩
      · exact ⟨k, by simp [List.take_succ_cons, List.filter_cons, hx, hk]⟩

/-! ### Stability of the score sort -/

theorem filter_insertBy_score (s : ℚ) (r : Recommendation) (l : List Recommendation) :
    (insertBy recGE r l).filter (fun x => decide (x.score = s)) =
      if r.score = s then r :: l.filter (fun x => decide (x.score = s))
      else l.filter (fun x => decide (x.score = s)) := by
  induction l with
  | nil => by_cases hr : r.score = s <;> simp [insertBy, List.filter_cons, hr]
  | cons x xs ih =>
    by_cases h : recGE r x = true
    · by_cases hr : r.score = s <;>
        by_cases hx : x.score = s <;>
          simp [insertBy, h, List.filter_cons, hr, hx]
    · have hlt : r.score < x.score := by
        have := (not_iff_not.mpr (decide_eq_true_iff (p := x.score ≤ r.score))).mp h
        exact lt_of_not_le this
      by_cases hr : r.score = s
      · have hx : ¬ x.score = s := by
          intro hxs; rw [hxs, ← hr] at hlt; exact lt_irrefl _ hlt
        simp [insertBy, h, List.filter_cons, hr, hx, ih]
      · by_cases hx : x.score = s <;>
          simp [insertBy, h, List.filter_cons, hr, hx, ih]

theorem filter_sortDescBy_score (s : ℚ) (l : List Recommendation) :
    (sortDescBy recGE l).filter (fun x => decide (x.score = s)) =
      l.filter (fun x => decide (x.score = s)) := by
  induction l with
  | nil => rfl
  | cons x xs ih =>
    by_cases hx : x.score = s <;>
      simp [sortDescBy, filter_insertBy_score, List.filter_cons, hx, ih]

/-! ### Facts about the candidate loop -/

theorem mem_buildRecs {prefs : UserPreferences} {excl : List String}
    {sims : List ℚ} {r : Recommendation} :
    ∀ {l : List (Nat × Destination)}, r ∈ buildRecs prefs excl sims l →
      ∃ i d, (i, d) ∈ l ∧ ¬(excl ≠ [] ∧ d.id ∈ excl) ∧
        r = mkRecommendation prefs sims i d := by
  intro l
  induction l with
  | nil => intro h; cases h
  | cons p rest ih =>
    obtain ⟨i, d⟩ := p
    intro h
    by_cases hskip : excl ≠ [] ∧ d.id ∈ excl
    · rw [buildRecs, if_pos hskip] at h
      obtain ⟨i0, d0, hmem, hne, heq⟩ := ih h
      exact ⟨i0, d0, List.mem_cons_of_mem _ hmem, hne, heq⟩
    · rw [buildRecs, if_neg hskip] at h
      rcases List.mem_cons.mp h with rfl | h
      · exact ⟨i, d, List.mem_cons_self _ _, hskip, rfl⟩
      · obtain ⟨i0, d0, hmem, hne, heq⟩ := ih h
        exact ⟨i0, d0, List.mem_cons_of_mem _ hmem, hne, heq⟩

theorem activityMatch_eq_card (dest : Destination) (prefs : UserPreferences) :
    activityMatch dest prefs =
      (dest.activity_types.toFinset ∩ prefs.activity_types.toFinset).card := by
  unfold activityMatch
  have hnd : (dest.activity_types.dedup.filter
      (fun t => decide (t ∈ prefs.activity_types))).Nodup :=
    (List.nodup_dedup _).filter _
  rw [← List.toFinset_card_of_nodup hnd]
  congr 1
  ext a
  simp [List.mem_filter, List.mem_dedup, Finset.mem_inter]

theorem recGE_total (a b : Recommendation) : recGE a b = true ∨ recGE b a = true := by
  unfold recGE
  rcases le_total b.score a.score with h | h
  · exact Or.inl (decide_eq_true h)
  · exact Or.inr (decide_eq_true h)

theorem recGE_trans (a b c : Recommendation) :
    recGE a b = true → recGE b c = true → recGE a c = true := by
  unfold recGE
  intro hab hbc
  exact decide_eq_true (le_trans (of_decide_eq_true hbc) (of_decide_eq_true hab))

theorem trendGE_total (a b : TrendingEntry) :
    decide (trendKeyGE a b) = true ∨ decide (trendKeyGE b a) = true := by
  unfold trendKeyGE
  rcases lt_trichotomy a.recent_visit_count b.recent_visit_count with h | h | h
  · exact Or.inr (decide_eq_true (Or.inl h))
  · rcases le_total b.dest.popularity_score a.dest.popularity_score with hp | hp
    · exact Or.inl (decide_eq_true (Or.inr ⟨h, hp⟩))
    · exact Or.inr (decide_eq_true (Or.inr ⟨h.symm, hp⟩))
  · exact Or.inl (decide_eq_true (Or.inl h))

theorem trendGE_trans (a b c : TrendingEntry) :
    decide (trendKeyGE a b) = true → decide (trendKeyGE b c) = true →
      decide (trendKeyGE a c) = true := by
  intro hab hbc
  have h1 := of_decide_eq_true hab
  have h2 := of_decide_eq_true hbc
  refine decide_eq_true ?_
  unfold trendKeyGE at h1 h2 ⊢
  rcases h1 with h1 | ⟨h1e, h1p⟩
  · rcases h2 with h2 | ⟨h2e, h2p⟩
    · exact Or.inl (lt_trans h2 h1)
    · exact Or.inl (h2e ▸ h1)
  · rcases h2 with h2 | ⟨h2e, h2p⟩
    · exact Or.inl (h1e ▸ h2)
    · exact Or.inr ⟨h1e.trans h2e, le_trans h2p h1p⟩

/-! ### Facts about popularity updates -/

theorem popularity_incPopularityFirst (delta : ℚ) (destId : String) :
    ∀ (dests : List Destination) (p : ℚ),
      popularity dests destId = some p →
      popularity (incPopularityFirst delta destId dests) destId = some (p + delta) := by
  intro dests
  induction dests with
  | nil => intro p hp; simp [popularity] at hp
  | cons d rest ih =>
    intro p hp
    by_cases h : d.id = destId
    · have hfind : List.find? (fun x => decide (x.id = destId)) (d :: rest) = some d :=
        List.find?_cons_of_pos _ (by simpa using h)
      have hfind2 : List.find? (fun x => decide (x.id = destId))
          ({ d with popularity_score := d.popularity_score + delta } :: rest) =
          some { d with popularity_score := d.popularity_score + delta } :=
        List.find?_cons_of_pos _ (by simpa using h)
      rw [popularity, hfind] at hp
      simp only [Option.map_some', Option.some.injEq] at hp
      rw [incPopularityFirst, if_pos h, popularity, hfind2]
      simp only [Option.map_some', Option.some.injEq]
      rw [hp]
    · have hfind : List.find? (fun x => decide (x.id = destId)) (d :: rest) =
          List.find? (fun x => decide (x.id = destId)) rest :=
        List.find?_cons_of_neg _ (by simpa using h)
      rw [popularity, hfind] at hp
      rw [incPopularityFirst, if_neg h, popularity,
        show List.find? (fun x => decide (x.id = destId)) (d :: incPopularityFirst delta destId rest) =
          List.find? (fun x => decide (x.id = destId)) (incPopularityFirst delta destId rest) from
          List.find?_cons_of_neg _ (by simpa using h)]
      exact ih p hp

theorem submit_feedback_log (st : EngineState) (fb : FeedbackRecord) :
    (submit_feedback st fb).feedback_log = st.feedback_log ++ [fb] := by
  unfold submit_feedback
  by_cases h4 : (4:ℚ) ≤ fb.rating
  · rw [if_pos h4]
  · rw [if_neg h4]
    by_cases h2 : fb.rating ≤ 2
    · rw [if_pos h2]
    · rw [if_neg h2]

theorem submit_feedback_high (st : EngineState) (fb : FeedbackRecord)
    (h4 : 4 ≤ fb.rating) :
    (submit_feedback st fb).destinations =
      incPopularityFirst (1/10) fb.destination_id st.destinations := by
  unfold submit_feedback
  rw [if_pos h4]

theorem submit_feedback_low (st : EngineState) (fb : FeedbackRecord)
    (h2 : fb.rating ≤ 2) :
    (submit_feedback st fb).destinations =
      incPopularityFirst (-(1/20)) fb.destination_id st.destinations := by
  unfold submit_feedback
  rw [if_neg (by exact not_le.mpr (lt_of_le_of_lt h2 (by norm_num))), if_pos h2]

theorem submit_feedback_mid (st : EngineState) (fb : FeedbackRecord)
    (h2 : 2 < fb.rating) (h4 : fb.rating < 4) :
    (submit_feedback st fb).destinations = st.destinations := by
  unfold submit_feedback
  rw [if_neg (not_le.mpr h4), if_neg (not_le.mpr h2)]

/-! ### Concrete sample data used by the witnesses -/

/-- A medium-budget culture destination (witness data). -/
def destParis : Destination :=
  { id := "paris", name := "Paris", country := "France", climate := "temperate",
    activity_types := ["culture", "food"], interests := ["history"],
    budget_level := "medium", popularity_score := 2 }

/-- A low-budget beach destination (witness data). -/
def destBeach : Destination :=
  { id := "beach", name := "Sandy Coast", country := "Costa", climate := "tropical",
    activity_types := ["beach"], interests := [], budget_level := "low",
    popularity_score := 1 }

/-- A sample preference profile (witness data). -/
def prefsSample : UserPreferences :=
  { user_id := "u1", activity_types := ["culture", "hiking"],
    budget_range := "medium", interests := ["history"] }

/-- The recommendation `recommend` produces for `destParis` under
`prefsSample` with raw similarity `1/2`: score `1/2 + 1/10 + 1/20`. -/
def parisRec : Recommendation :=
  { id := "paris", name := "Paris", country := "France", score := 13/20 }

/-- The recommendation `recommend` produces for `destBeach` under
`prefsSample` with raw similarity `1/4`: no boost applies. -/
def beachRec : Recommendation :=
  { id := "beach", name := "Sandy Coast", country := "Costa", score := 1/4 }

/-- Evaluation of `recommend` on the two-destination sample corpus with no
exclusions. -/
theorem recommend_sample_eval :
    recommend [destParis, destBeach] prefsSample [] [1/2, 1/4] 5 =
      [parisRec, beachRec] := by
  simp [recommend, buildRecs, mkRecommendation, activityMatch, sortDescBy, insertBy,
    recGE, destParis, destBeach, prefsSample, List.enum, List.enumFrom,
    List.dedup_cons_of_mem, List.dedup_cons_of_not_mem, List.filter_cons]
  norm_num [parisRec, beachRec]

/-- Evaluation of `recommend` on the sample corpus with `beach` excluded. -/
theorem recommend_sample_excl_eval :
    recommend [destParis, destBeach] prefsSample ["beach"] [1/2, 1/4] 5 =
      [parisRec] := by
  simp [recommend, buildRecs, mkRecommendation, activityMatch, sortDescBy, insertBy,
    recGE, destParis, destBeach, prefsSample, List.enum, List.enumFrom,
    List.dedup_cons_of_mem, List.dedup_cons_of_not_mem, List.filter_cons]
  norm_num [parisRec]

/-! ### The claims -/

/-- C1: for every destination considered by `recommend`, the final score
equals the raw cosine similarity, plus exactly `0.1` iff the destination's
budget tier equals the user's budget range, plus exactly `0.05` times the
cardinality of the intersection of the destination's activity-tag set with
the user's activity-type set. -/
theorem recommend_score_formula (dests : List Destination) (prefs : UserPreferences)
    (excl : List String) (sims : List ℚ) (limit : Nat) (r : Recommendation)
    (hr : r ∈ recommend dests prefs excl sims limit) :
    ∃ i d, (i, d) ∈ dests.enum ∧ r.id = d.id ∧
      r.score = sims.getD i 0
        + (if d.budget_level = prefs.budget_range then 1/10 else 0)
        + ((d.activity_types.toFinset ∩ prefs.activity_types.toFinset).card : ℚ) * (1/20) := by
  have h2 : r ∈ buildRecs prefs excl sims dests.enum :=
    (sortDescBy_perm recGE _).mem_iff.mp (List.mem_of_mem_take hr)
  obtain ⟨i, d, hmem, _, rfl⟩ := mem_buildRecs h2
  refine ⟨i, d, hmem, rfl, ?_⟩
  rw [← activityMatch_eq_card]
  simp only [mkRecommendation]
  by_cases hb : d.budget_level = prefs.budget_range
  · simp [hb]
  · simp [hb]

/-- Witness for C1 at a concrete corpus, profile and similarity list. -/
theorem recommend_score_formula_witness :
    ∃ i d, (i, d) ∈ ([destParis, destBeach] : List Destination).enum ∧
      parisRec.id = d.id ∧
      parisRec.score = ([1/2, 1/4] : List ℚ).getD i 0
        + (if d.budget_level = prefsSample.budget_range then 1/10 else 0)
        + ((d.activity_types.toFinset ∩ prefsSample.activity_types.toFinset).card : ℚ) * (1/20) :=
  recommend_score_formula [destParis, destBeach] prefsSample [] [1/2, 1/4] 5
    parisRec (by rw [recommend_sample_eval]; exact List.mem_cons_self _ _)

/-- C2: every destination id in the exclusion set is absent from the list
returned by `recommend`. -/
theorem recommend_excluded_absent (dests : List Destination) (prefs : UserPreferences)
    (excl : List String) (sims : List ℚ) (limit : Nat) (x : String)
    (r : Recommendation) (hx : x ∈ excl)
    (hr : r ∈ recommend dests prefs excl sims limit) : r.id ≠ x := by
  have h2 : r ∈ buildRecs prefs excl sims dests.enum :=
    (sortDescBy_perm recGE _).mem_iff.mp (List.mem_of_mem_take hr)
  obtain ⟨i, d, _, hne, rfl⟩ := mem_buildRecs h2
  intro hid
  refine hne ⟨List.ne_nil_of_mem hx, ?_⟩
  have hdid : d.id = x := hid
  rw [hdid]
  exact hx

/-- Witness for C2: with `beach` excluded, the surviving recommendation does
not carry the excluded id. -/
theorem recommend_excluded_absent_witness : parisRec.id ≠ "beach" :=
  recommend_excluded_absent [destParis, destBeach] prefsSample ["beach"] [1/2, 1/4] 5
    "beach" parisRec (by decide) (by rw [recommend_sample_excl_eval]; exact List.mem_cons_self _ _)

/-- C3: the rating-to-popularity-delta mapping of `submit_feedback` is a pure
function of the rating: rating ≥ 4 adds `0.1`, rating ≤ 2 adds `-0.05`,
rating 3 leaves popularity unchanged; replaying the same record applies the
delta again, so rating 5 twice adds exactly `0.2` and rating 1 once subtracts
exactly `0.05`. -/
theorem feedback_rating_deltas (st : EngineState) (fb : FeedbackRecord) (p : ℚ)
    (hp : popularity st.destinations fb.destination_id = some p) :
    (4 ≤ fb.rating →
      popularity (submit_feedback st fb).destinations fb.destination_id = some (p + 1/10)) ∧
    (fb.rating ≤ 2 →
      popularity (submit_feedback st fb).destinations fb.destination_id = some (p - 1/20)) ∧
    (fb.rating = 3 →
      popularity (submit_feedback st fb).destinations fb.destination_id = some p) ∧
    (fb.rating = 5 →
      popularity (submit_feedback (submit_feedback st fb) fb).destinations fb.destination_id
        = some (p + 2/10)) ∧
    (fb.rating = 1 →
      popularity (submit_feedback st fb).destinations fb.destination_id = some (p - 1/20)) := by
  refine ⟨?_, ?_, ?_, ?_, ?_⟩
  · intro h4
    rw [submit_feedback_high st fb h4]
    exact popularity_incPopularityFirst _ _ _ p hp
  · intro h2
    rw [submit_feedback_low st fb h2]
    have := popularity_incPopularityFirst (-(1/20)) fb.destination_id st.destinations p hp
    rw [this]
    norm_num
    ring
  · intro h3
    rw [submit_feedback_mid st fb (by rw [h3]; norm_num) (by rw [h3]; norm_num)]
    exact hp
  · intro h5
    have h4 : (4:ℚ) ≤ fb.rating := by rw [h5]; norm_num
    have step1 : popularity (submit_feedback st fb).destinations fb.destination_id
        = some (p + 1/10) := by
      rw [submit_feedback_high st fb h4]
      exact popularity_incPopularityFirst _ _ _ p hp
    rw [submit_feedback_high (submit_feedback st fb) fb h4]
    have := popularity_incPopularityFirst (1/10) fb.destination_id
      (submit_feedback st fb).destinations (p + 1/10) step1
    rw [this]
    norm_num
    ring
  · intro h1
    have h2 : fb.rating ≤ 2 := by rw [h1]; norm_num
    rw [submit_feedback_low st fb h2]
    have := popularity_incPopularityFirst (-(1/20)) fb.destination_id st.destinations p hp
    rw [this]
    norm_num
    ring

/-- Witness data: a state holding only `destParis` (popularity 2) and an empty
feedback log. -/
def stSample : EngineState := { feedback_log := [], destinations := [destParis] }

/-- Witness data: a rating-5 feedback record for `destParis`. -/
def fbFive : FeedbackRecord := { user_id := "u1", destination_id := "paris", rating := 5 }

/-- Witness for C3: replaying a rating-5 record twice on `destParis`
(popularity 2) yields popularity `2 + 0.2`. -/
theorem feedback_rating_deltas_witness :
    popularity (submit_feedback (submit_feedback stSample fbFive) fbFive).destinations
      fbFive.destination_id = some (2 + 2/10) :=
  (feedback_rating_deltas stSample fbFive 2
    (by simp [popularity, stSample, fbFive, destParis])).2.2.2.1 rfl

/-- C4: `recommend` sorts candidates descending by final score, and among
candidates of equal final score the first-seen corpus order is preserved: the
equal-score elements of the returned list form, in order, an initial segment
of the equal-score candidates in corpus-enumeration order. -/
theorem recommend_sorted_and_stable (dests : List Destination)
    (prefs : UserPreferences) (excl : List String) (sims : List ℚ)
    (limit : Nat) (s : ℚ) :
    List.Sorted (fun a b : Recommendation => b.score ≤ a.score)
      (recommend dests prefs excl sims limit) ∧
    ∃ k, (recommend dests prefs excl sims limit).filter (fun r => decide (r.score = s)) =
      ((buildRecs prefs excl sims dests.enum).filter (fun r => decide (r.score = s))).take k := by
  constructor
  · have hs : List.Sorted (fun x y => recGE x y = true)
        (sortDescBy recGE (buildRecs prefs excl sims dests.enum)) :=
      sortDescBy_sorted recGE_total recGE_trans _
    have hs2 : List.Sorted (fun a b : Recommendation => b.score ≤ a.score)
        (sortDescBy recGE (buildRecs prefs excl sims dests.enum)) :=
      hs.imp (fun h => of_decide_eq_true h)
    exact hs2.sublist (List.take_sublist _ _)
  · obtain ⟨k, hk⟩ := filter_take_eq_take_filter (fun r => decide (r.score = s))
      (sortDescBy recGE (buildRecs prefs excl sims dests.enum)) limit
    exact ⟨k, by rw [recommend, hk, filter_sortDescBy_score]⟩

/-- C5: limit 0 yields the empty list, and a limit at least the number of
eligible candidates returns all of them (a permutation of the candidate list)
in descending score order. -/
theorem recommend_limit_behavior (dests : List Destination)
    (prefs : UserPreferences) (excl : List String) (sims : List ℚ) (limit : Nat) :
    recommend dests prefs excl sims 0 = [] ∧
    ((buildRecs prefs excl sims dests.enum).length ≤ limit →
      (recommend dests prefs excl sims limit).Perm (buildRecs prefs excl sims dests.enum) ∧
      List.Sorted (fun a b : Recommendation => b.score ≤ a.score)
        (recommend dests prefs excl sims limit)) := by
  constructor
  · rw [recommend, List.take_zero]
  · intro hlen
    have hlen2 : (sortDescBy recGE (buildRecs prefs excl sims dests.enum)).length ≤ limit := by
      rw [(sortDescBy_perm recGE _).length_eq]
      exact hlen
    have htake : recommend dests prefs excl sims limit
        = sortDescBy recGE (buildRecs prefs excl sims dests.enum) := by
      rw [recommend, List.take_of_length_le hlen2]
    constructor
    · rw [htake]
      exact sortDescBy_perm recGE _
    · rw [htake]
      exact (sortDescBy_sorted recGE_total recGE_trans _).imp
        (fun h => of_decide_eq_true h)

/-- Witness for C5: on the sample corpus, limit 5 exceeds the two eligible
candidates, so the full sorted candidate list comes back. -/
theorem recommend_limit_behavior_witness :
    (recommend [destParis, destBeach] prefsSample [] [1/2, 1/4] 5).Perm
      (buildRecs prefsSample [] [1/2, 1/4] ([destParis, destBeach] : List Destination).enum) ∧
    List.Sorted (fun a b : Recommendation => b.score ≤ a.score)
      (recommend [destParis, destBeach] prefsSample [] [1/2, 1/4] 5) :=
  (recommend_limit_behavior [destParis, destBeach] prefsSample [] [1/2, 1/4] 5).2
    (by simp [buildRecs, List.enum, List.enumFrom])

/-- C6 counterexample: a scoring-path failure (the similarity computation
raising) makes `recommend` return the empty list, which is not the static
3-item fallback list the claim names. -/
theorem scoring_failure_not_fallback_cex :
    recommendTotal [destParis] prefsSample [] (Except.error "transform raised") 10 = [] ∧
    recommendTotal [destParis] prefsSample [] (Except.error "transform raised") 10
      ≠ dummyRecommend 10 := by
  constructor
  · rfl
  · decide

/-- C6 (amended): every failure inside the scoring path of `recommend`
degrades to returning the empty list rather than propagating the failure. -/
theorem scoring_failure_returns_empty (dests : List Destination)
    (prefs : UserPreferences) (excl : List String) (limit : Nat) (msg : String) :
    recommendTotal dests prefs excl (Except.error msg) limit = [] := rfl

/-- Witness data: a feedback record whose rating 6 lies outside 1-5. -/
def fbSix : FeedbackRecord := { user_id := "u1", destination_id := "paris", rating := 6 }

/-- C7 (exhibiting the code bug): a rating of 6, outside the documented 1-5
range, is not rejected: the feedback record is stored and the destination's
popularity is incremented by `0.1` through the `rating >= 4` branch. -/
theorem out_of_range_rating_mutates :
    (submit_feedback stSample fbSix).feedback_log = [fbSix] ∧
    popularity (submit_feedback stSample fbSix).destinations "paris" = some (2 + 1/10) := by
  constructor
  · rw [submit_feedback_log]
    rfl
  · rw [submit_feedback_high stSample fbSix (by norm_num [fbSix])]
    have h := popularity_incPopularityFirst (1/10) fbSix.destination_id
      stSample.destinations 2 (by simp [popularity, stSample, fbSix, destParis])
    simpa [fbSix, stSample] using h

/-- C8: with an empty corpus the trained model is the dummy fallback, and its
`recommend` returns exactly the fixed 3-item static fallback list (for any
limit that does not truncate it, in particular the default limit 10). -/
theorem empty_corpus_fallback (prefs : UserPreferences) (excl : List String)
    (simsE : Except String (List ℚ)) (limit : Nat) (h : 3 ≤ limit) :
    modelRecommend (train_recommendation_models []) prefs excl simsE limit
      = sample_destinations ∧ sample_destinations.length = 3 := by
  constructor
  · show dummyRecommend limit = sample_destinations
    have hl : sample_destinations.length ≤ limit := by
      simpa [sample_destinations] using h
    rw [dummyRecommend, List.take_of_length_le hl]
  · rfl

/-- Witness for C8 at the endpoint's default limit of 10. -/
theorem empty_corpus_fallback_witness :
    modelRecommend (train_recommendation_models []) prefsSample [] (Except.ok []) 10
      = sample_destinations ∧ sample_destinations.length = 3 :=
  empty_corpus_fallback prefsSample [] (Except.ok []) 10 (by norm_num)

/-- Scenario destination X: popularity 3 (witness data for trending). -/
def destX : Destination :=
  { id := "X", name := "X", country := "C", climate := "t", popularity_score := 3 }

/-- Scenario destination Y: popularity 1 (witness data for trending). -/
def destY : Destination :=
  { id := "Y", name := "Y", country := "C", climate := "t", popularity_score := 1 }

/-- Scenario destination Z: popularity 0 (witness data for trending). -/
def destZ : Destination :=
  { id := "Z", name := "Z", country := "C", climate := "t", popularity_score := 0 }

/-- Scenario visit log: 5 in-window visits to X, 5 to Y, 9 to Z. -/
def visitsXYZ : List VisitRecord :=
  List.replicate 5 { user_id := "u", destination_id := "X", created_at := 0 } ++
  List.replicate 5 { user_id := "u", destination_id := "Y", created_at := 0 } ++
  List.replicate 9 { user_id := "u", destination_id := "Z", created_at := 0 }

/-- C9: the trending query pairs every destination with its count of visits
in the trailing 7-day window, sorts by (visit count descending, popularity
descending), truncates to `limit`; and on the scenario with window visit
counts X:5, Y:5, Z:9 and popularity X:3, Y:1 the order is Z, X, Y. -/
theorem trending_pipeline (dests : List Destination) (visits : List VisitRecord)
    (now : ℤ) (limit : Nat) :
    (∀ e ∈ get_trending_destinations dests visits now limit,
      e.recent_visit_count = recentVisitCount visits e.dest.id (now - 7 * 86400)) ∧
    List.Sorted trendKeyGE (get_trending_destinations dests visits now limit) ∧
    (get_trending_destinations dests visits now limit).length = min limit dests.length ∧
    (dests.length ≤ limit →
      (get_trending_destinations dests visits now limit).Perm
        (trendingEntries dests visits (now - 7 * 86400))) ∧
    (get_trending_destinations [destX, destY, destZ] visitsXYZ 0 10).map
      (fun e => e.dest.id) = ["Z", "X", "Y"] := by
  refine ⟨?_, ?_, ?_, ?_, by decide⟩
  · intro e he
    simp only [get_trending_destinations] at he
    have h1 : e ∈ sortDescBy (fun a b => decide (trendKeyGE a b))
        (trendingEntries dests visits (now - 7 * 86400)) := List.mem_of_mem_take he
    have h2 := (sortDescBy_perm _ _).mem_iff.mp h1
    rw [trendingEntries] at h2
    obtain ⟨d, _, rfl⟩ := List.mem_map.mp h2
    rfl
  · have hs := sortDescBy_sorted trendGE_total trendGE_trans
      (trendingEntries dests visits (now - 7 * 86400))
    have hs2 : List.Sorted trendKeyGE
        (sortDescBy (fun a b => decide (trendKeyGE a b))
          (trendingEntries dests visits (now - 7 * 86400))) :=
      hs.imp (fun h => of_decide_eq_true h)
    exact hs2.sublist (List.take_sublist _ _)
  · simp only [get_trending_destinations, List.length_take]
    rw [(sortDescBy_perm (fun a b => decide (trendKeyGE a b))
      (trendingEntries dests visits (now - 7 * 86400))).length_eq]
    rw [trendingEntries, List.length_map]
  · intro hlen
    have hlen2 : (sortDescBy (fun a b => decide (trendKeyGE a b))
        (trendingEntries dests visits (now - 7 * 86400))).length ≤ limit := by
      rw [(sortDescBy_perm _ _).length_eq, trendingEntries, List.length_map]
      exact hlen
    simp only [get_trending_destinations]
    rw [List.take_of_length_le hlen2]
    exact sortDescBy_perm _ _

/-- Witness for C9: the Z entry of the scenario output indeed counts 9
in-window visits, and with limit 10 the output is a permutation of the full
entry list. -/
theorem trending_pipeline_witness :
    ({ dest := destZ, recent_visit_count := 9 } : TrendingEntry).recent_visit_count
      = recentVisitCount visitsXYZ
          ({ dest := destZ, recent_visit_count := 9 } : TrendingEntry).dest.id
          ((0:ℤ) - 7 * 86400) ∧
    (get_trending_destinations [destX, destY, destZ] visitsXYZ 0 10).Perm
      (trendingEntries [destX, destY, destZ] visitsXYZ ((0:ℤ) - 7 * 86400)) :=
  ⟨(trending_pipeline [destX, destY, destZ] visitsXYZ 0 10).1 _ (by decide),
   (trending_pipeline [destX, destY, destZ] visitsXYZ 0 10).2.2.2.1 (by decide)⟩

/-- C10: the rating is a real number, and any rating strictly between 2 and 4
(not only the integer 3) stores the feedback record while leaving every
destination — in particular the referenced one — unchanged. -/
theorem mid_rating_stores_without_delta (st : EngineState) (fb : FeedbackRecord)
    (h2 : 2 < fb.rating) (h4 : fb.rating < 4) :
    (submit_feedback st fb).feedback_log = st.feedback_log ++ [fb] ∧
    (submit_feedback st fb).destinations = st.destinations :=
  ⟨submit_feedback_log st fb, submit_feedback_mid st fb h2 h4⟩

/-- Witness data: a feedback record with the non-integral rating 2.5. -/
def fbMid : FeedbackRecord := { user_id := "u1", destination_id := "paris", rating := 5/2 }

/-- Witness for C10 at the non-integral rating 2.5. -/
theorem mid_rating_stores_without_delta_witness :
    (submit_feedback stSample fbMid).feedback_log = stSample.feedback_log ++ [fbMid] ∧
    (submit_feedback stSample fbMid).destinations = stSample.destinations :=
  mid_rating_stores_without_delta stSample fbMid (by norm_num [fbMid]) (by norm_num [fbMid])

end VirtualVacation
